import Mathlib

/-!
Verification development for the `SqliteDatabase` query-builder / CRUD facade.

JavaScript strings are sequences of UTF-16 code units; we model them as
`List Nat` (each element intended `< 2 ^ 16`).  JavaScript scalar values and
nested plain objects are modelled by `JsVal`; an object is its ordered list of
(key, value) entries, as JavaScript objects preserve insertion order.
-/

/-- A JavaScript string: its list of UTF-16 code units. -/
abbrev JSString := List Nat

/-- Embed an ASCII/BMP Lean string literal as a `JSString`. -/
def jstr (s : String) : JSString := s.data.map Char.toNat

/-- Upper-case hexadecimal digit for `n < 16`, as a code unit
(`0`-`9` are 48..57, `A`-`F` are 65..70). -/
def hexDigit (n : Nat) : Nat := if n < 10 then 48 + n else 55 + n

/-- Whether a code unit is left unchanged by the JavaScript global `escape`:
ASCII letters, digits, and `@ * _ + - . /`. -/
def escapeSafe (c : Nat) : Bool :=
  (65 ≤ c && c ≤ 90) || (97 ≤ c && c ≤ 122) || (48 ≤ c && c ≤ 57) ||
  (c == 64) || (c == 42) || (c == 95) || (c == 43) || (c == 45) || (c == 46) || (c == 47)

/-- How JavaScript `escape` renders one code unit: safe units verbatim, units
below 256 as `%XX`, others as `%uXXXX` (upper-case hex). -/
def escapeChar (c : Nat) : List Nat :=
  if escapeSafe c then [c]
  else if c < 256 then [37, hexDigit (c / 16), hexDigit (c % 16)]
  else [37, 117, hexDigit (c / 4096 % 16), hexDigit (c / 256 % 16),
        hexDigit (c / 16 % 16), hexDigit (c % 16)]

/-- The JavaScript global `escape`, used by `quote` in literal mode. -/
def escape (s : JSString) : JSString := s.flatMap escapeChar

/-- Whether a code unit is a hexadecimal digit (`0-9`, `A-F`, `a-f`),
as accepted by JavaScript `unescape`. -/
def isHexDigit (c : Nat) : Bool :=
  (48 ≤ c && c ≤ 57) || (65 ≤ c && c ≤ 70) || (97 ≤ c && c ≤ 102)

/-- Numeric value of a hexadecimal digit code unit. -/
def hexVal (c : Nat) : Nat := if c ≤ 57 then c - 48 else if c ≤ 70 then c - 55 else c - 87

/-- One scanning step of JavaScript `unescape`, indexed by fuel so that the
recursion is structural (each step consumes at least one input unit, so fuel
equal to the input length is always enough; with fuel exhausted the remaining
input is returned unchanged, a case that is never reached from `unescape`).
The scan decodes `%uXXXX` and `%XX` groups; a `%` that does not start a valid
group is copied verbatim and scanning resumes at the next unit. -/
def unescapeF : Nat → JSString → JSString
  | _, [] => []
  | 0, s => s
  | fuel + 1, c :: rest =>
    if c = 37 then
      match rest with
      | 117 :: a :: b :: d :: e :: rest' =>
        if isHexDigit a && isHexDigit b && isHexDigit d && isHexDigit e then
          (hexVal a * 4096 + hexVal b * 256 + hexVal d * 16 + hexVal e) :: unescapeF fuel rest'
        else 37 :: unescapeF fuel rest
      | a :: b :: rest' =>
        if isHexDigit a && isHexDigit b then
          (hexVal a * 16 + hexVal b) :: unescapeF fuel rest'
        else 37 :: unescapeF fuel rest
      | _ => 37 :: unescapeF fuel rest
    else c :: unescapeF fuel rest

/-- The JavaScript global `unescape`, used by `dequoteAll`. -/
def unescape (s : JSString) : JSString := unescapeF s.length s

example : escape (jstr "a b%") = jstr "a%20b%25" := by decide
example : unescape (jstr "a%20b%25") = jstr "a b%" := by decide
example : escape [0x20AC] = jstr "%u20AC" := by decide
example : unescape (jstr "%u20AC") = [0x20AC] := by decide
example : unescape (jstr "%u12") = jstr "%u12" := by decide
example : unescape (jstr "%4") = jstr "%4" := by decide

/-- A JavaScript value as used by the facade: a scalar (string, number,
boolean, null) or a nested plain object, kept as its ordered entry list. -/
inductive JsVal where
  | str (s : JSString)
  | num (n : Int)
  | bool (b : Bool)
  | null
  | obj (fields : List (JSString × JsVal))

/-- A JavaScript object: an ordered association list with unique keys. -/
abbrev JsObj := List (JSString × JsVal)

/-- JavaScript property assignment `res[k] = v` on an object modelled as an
ordered entry list: an existing key keeps its position and gets the new
value, a fresh key is appended. -/
def setKey (res : JsObj) (k : JSString) (v : JsVal) : JsObj :=
  if res.any (fun p => p.1 == k) then
    res.map (fun p => if p.1 == k then (k, v) else p)
  else res ++ [(k, v)]

namespace SqliteDatabase

/-- The `flattenObj` method: recursively flattens nested objects into
underscore-joined key paths, assigning each leaf into the accumulator `res`
(the JavaScript `for (let key in obj)` loop, in entry order; a value is
recursed into exactly when it is a non-null object). The JavaScript
`parent` argument is falsy (`undefined`) on the outer call, modelled by the
empty string. -/
def flattenObj (obj : JsObj) (parent : JSString := []) (res : JsObj := []) : JsObj :=
  match obj with
  | [] => res
  | (key, v) :: rest =>
    let propName := if parent.isEmpty then key else parent ++ 95 :: key
    match v with
    | .obj fields => flattenObj rest parent (flattenObj fields propName res)
    | _ => flattenObj rest parent (setKey res propName v)

example : flattenObj [(jstr "a", .obj [(jstr "b", .num 1)])] = [(jstr "a_b", .num 1)] := by
  simp [flattenObj, setKey]; decide

/-- The `quote` method. In identifier mode (`isColumn = true`) a string is
wrapped verbatim in double quotes; in literal mode (`isColumn = false`) the
surrounding quotes are the empty string and the string is percent-encoded by
`escape`. `null` becomes the four-character string `null`; `true` and
`false` become the numbers `1` and `0`; anything else is returned
unchanged. -/
def quote (k : JsVal) (isColumn : Bool := true) : JsVal :=
  match k with
  | .str s =>
    let quotes : JSString := if isColumn then [34] else []
    let s' := if isColumn then s else escape s
    .str (quotes ++ s' ++ quotes)
  | .null => .str (jstr "null")
  | .bool true => .num 1
  | .bool false => .num 0
  | k => k

/-- JavaScript string conversion, as applied when a value meets string
concatenation or `Array.prototype.join`. -/
def jsToString (v : JsVal) : JSString :=
  match v with
  | .str s => s
  | .num n => jstr (toString n)
  | .bool b => if b then jstr "true" else jstr "false"
  | .null => jstr "null"
  | .obj _ => jstr "[object Object]"

/-- Entry-wise body of `dequoteAll`: `unescape` every string-valued field,
leave other fields unchanged (the `Object.entries` / `Object.fromEntries`
round trip preserves entry order). -/
def dequoteEntries (r : JsObj) : JsObj :=
  r.map (fun p =>
    match p.2 with
    | .str s => (p.1, .str (unescape s))
    | _ => p)

/-- The `dequoteAll` method: a falsy argument (`undefined` for a missing
row, modelled as `none`) is returned as is, otherwise every string value in
the object is unescaped. -/
def dequoteAll (obj : Option JsObj) : Option JsObj :=
  match obj with
  | none => none
  | some r => some (dequoteEntries r)

/-- The `quoteAll` method: `quote` every element of the array. -/
def quoteAll (arr : List JsVal) (isColumn : Bool := true) : List JsVal :=
  arr.map (fun v => quote v isColumn)

/-- The `buildParamString` method: flattens `params` and joins
`"key" = ?` fragments (key rendered by `quote` in identifier mode) with
`joiner`, ignoring the values. -/
def buildParamString (params : JsObj) (joiner : JSString := jstr " AND ") : JSString :=
  let flattenedItem := flattenObj params
  let paramString := flattenedItem.map (fun p => jsToString (quote (.str p.1)) ++ jstr " = ?")
  List.intercalate joiner paramString

/-- The `buildInsertQuery` method. -/
def buildInsertQuery (table : JSString) (params : JsObj) : JSString :=
  let flattenedItem := flattenObj params
  let columnNamesString := List.intercalate (jstr ", ") ((quoteAll (flattenedItem.map (fun p => .str p.1))).map jsToString)
  let dataString := List.intercalate (jstr ", ") (flattenedItem.map (fun _ => jstr "?"))
  jstr "INSERT INTO \x22" ++ table ++ jstr "\x22 (" ++ columnNamesString ++ jstr ") VALUES (" ++ dataString ++ jstr ");"

/-- The `buildSelectQuery` method: a nonempty (truthy) WHERE string is
appended after `WHERE`, an empty one yields an unconditional scan. -/
def buildSelectQuery (table : JSString) (params : JsObj) : JSString :=
  let whereString := buildParamString params
  if whereString.isEmpty then
    jstr "SELECT * FROM \x22" ++ table ++ jstr "\x22;"
  else
    jstr "SELECT * FROM \x22" ++ table ++ jstr "\x22 WHERE " ++ whereString ++ jstr ";"

/-- The `buildUpdateQuery` method. Both mappings are flattened, then
rendered by `buildParamString` (which flattens again); with an empty
(falsy) WHERE string the emitted statement ends in a stray double quote
before the semicolon, exactly as in the source. -/
def buildUpdateQuery (table : JSString) (valueParams : JsObj) (whereParams : JsObj := []) : JSString :=
  let flattenedValues := flattenObj valueParams
  let flattenedWhere := flattenObj whereParams
  let valueString := buildParamString flattenedValues (jstr ", ")
  let whereString := buildParamString flattenedWhere
  if whereString.isEmpty then
    jstr "UPDATE \x22" ++ table ++ jstr "\x22 SET " ++ valueString ++ jstr "\x22;"
  else
    jstr "UPDATE \x22" ++ table ++ jstr "\x22 SET " ++ valueString ++ jstr " WHERE " ++ whereString ++ jstr ";"

example : buildInsertQuery (jstr "table") [(jstr "a", .num 1), (jstr "b", .str (jstr "x"))]
    = jstr "INSERT INTO \x22table\x22 (\x22a\x22, \x22b\x22) VALUES (?, ?);" := by
  simp [buildInsertQuery, flattenObj, setKey]; decide
example : buildSelectQuery (jstr "table") [] = jstr "SELECT * FROM \x22table\x22;" := by
  simp [buildSelectQuery, buildParamString, flattenObj, setKey]; decide
example : buildSelectQuery (jstr "table") [(jstr "a", .num 1)]
    = jstr "SELECT * FROM \x22table\x22 WHERE \x22a\x22 = ?;" := by
  simp [buildSelectQuery, buildParamString, flattenObj, setKey]; decide
example : buildUpdateQuery (jstr "table") [(jstr "a", .num 1)] [(jstr "b", .num 2)]
    = jstr "UPDATE \x22table\x22 SET \x22a\x22 = ? WHERE \x22b\x22 = ?;" := by
  simp [buildUpdateQuery, buildParamString, flattenObj, setKey]; decide
example : buildUpdateQuery (jstr "table") [(jstr "a", .num 1)] []
    = jstr "UPDATE \x22table\x22 SET \x22a\x22 = ?\x22;" := by
  simp [buildUpdateQuery, buildParamString, flattenObj, setKey]; decide

end SqliteDatabase

/-!
Execution model.  The facade runs its statements against `better-sqlite3`;
the library and the SQLite engine are external to the repository, so the
following small semantic model of them is part of the embedding: a database
is a list of named tables, each holding its column names and its rows (a row
is an association list from column name to stored value).  Identifiers
interpolated into SQL text arrive double-quoted; the engine strips one
layer of surrounding double quotes when parsing (`unquoteId`), and rejects
text that is not a well-formed identifier, as `prepare` would.  Binding a
boolean or an object throws in `better-sqlite3` (`badBind`); SQL `=` never
matches `NULL` (`sqlEq`).  Each column carries the type affinity derived
from its declared type (`columnAffinity`): stored values and bound
comparison operands are converted by that affinity (`applyAffinity`), so
a TEXT column holds and returns numbers as their decimal text.  A statement either fails, leaving the database
unchanged, or succeeds; explicit `BEGIN`/`COMMIT` statements manage a
transaction: the connection records the state to which an interrupted
(never-committed) transaction would roll back, and `observable` is the
durable state a reader sees after such an interruption.
-/

/-- Errors surfaced by the modelled engine. -/
inductive SqlErr where
  | syntaxError
  | noSuchTable
  | noSuchColumn
  | badBinding
  | nestedTxn
  | noTxn
deriving DecidableEq, Repr

/-- SQLite column type affinity, determined from the declared type. -/
inductive Affinity where
  | integer
  | text
  | blob
  | real
  | numeric
deriving DecidableEq, Repr

/-- Upper-case the ASCII letters of a string (SQLite matches declared
type names case-insensitively). -/
def upperU (s : JSString) : JSString :=
  s.map (fun c => if 97 ≤ c && c ≤ 122 then c - 32 else c)

/-- Whether `p` is a prefix of `l` (code-unit lists). -/
def hasPrefixU : JSString → JSString → Bool
  | _, [] => true
  | [], _ :: _ => false
  | a :: as, b :: bs => a == b && hasPrefixU as bs

/-- Whether `sub` occurs contiguously inside `hay`. -/
def hasSubstrU (hay sub : JSString) : Bool :=
  match hay with
  | [] => hasPrefixU [] sub
  | c :: t => hasPrefixU (c :: t) sub || hasSubstrU t sub

/-- SQLite's affinity-determination rules, applied in order to the
(upper-cased) declared type: a type containing INT has INTEGER affinity;
else CHAR/CLOB/TEXT gives TEXT; else BLOB or an empty type gives BLOB
(no affinity); else REAL/FLOA/DOUB gives REAL; anything else NUMERIC. -/
def columnAffinity (ty : JSString) : Affinity :=
  let u := upperU ty
  if hasSubstrU u (jstr "INT") then .integer
  else if hasSubstrU u (jstr "CHAR") || hasSubstrU u (jstr "CLOB") || hasSubstrU u (jstr "TEXT") then .text
  else if hasSubstrU u (jstr "BLOB") || u.isEmpty then .blob
  else if hasSubstrU u (jstr "REAL") || hasSubstrU u (jstr "FLOA") || hasSubstrU u (jstr "DOUB") then .real
  else .numeric

/-- Decimal digits of a natural number, most significant first, as code
units (fuel-indexed so the recursion is structural; `n + 1` fuel always
suffices since each step divides by ten). -/
def natTextGo : Nat → Nat → JSString
  | 0, _ => []
  | fuel + 1, n => if n < 10 then [48 + n] else natTextGo fuel (n / 10) ++ [48 + n % 10]

/-- Decimal text of a natural number. -/
def natText (n : Nat) : JSString := natTextGo (n + 1) n

/-- SQLite's text rendering of an integer value: decimal digits with a
leading minus sign when negative. -/
def intToText : Int → JSString
  | .ofNat n => natText n
  | .negSucc m => 45 :: natText (m + 1)

/-- Whether a string is one or more decimal digits. -/
def allDigits (s : JSString) : Bool :=
  !s.isEmpty && s.all (fun c => 48 ≤ c && c ≤ 57)

/-- Numeric value of a digit string. -/
def digitsToNat (s : JSString) : Nat :=
  s.foldl (fun acc c => acc * 10 + (c - 48)) 0

/-- Parse a well-formed optionally-signed decimal integer text, as the
numeric affinities convert it (the model has no real numbers, and the
surrounding whitespace SQLite also accepts never arises from the facade,
whose string values are percent-encoded). -/
def parseIntText (s : JSString) : Option Int :=
  match s with
  | 45 :: rest => if allDigits rest then some (-(digitsToNat rest : Int)) else none
  | 43 :: rest => if allDigits rest then some ((digitsToNat rest : Nat) : Int) else none
  | _ => if allDigits s then some ((digitsToNat s : Nat) : Int) else none

/-- Apply a column's type affinity to a value, as SQLite does both when
storing into the column and when comparing the column against an
affinity-free operand such as a bound parameter: TEXT affinity converts a
number to its decimal text; the numeric affinities (INTEGER, REAL,
NUMERIC) convert well-formed integer text to a number; everything else is
unchanged (booleans and objects never reach the engine, `badBind` rejects
them at bind time). -/
def applyAffinity (aff : Affinity) (v : JsVal) : JsVal :=
  match aff, v with
  | .text, .num n => .str (intToText n)
  | .integer, .str s | .real, .str s | .numeric, .str s =>
    match parseIntText s with
    | some n => .num n
    | none => .str s
  | _, v => v

/-- A table: its columns (name and affinity, in declaration order) and
its rows. -/
structure TableData where
  cols : List (JSString × Affinity)
  rows : List JsObj

/-- A database: named tables in creation order. -/
abbrev DbState := List (JSString × TableData)

/-- Render an identifier the way the facade interpolates it into SQL text:
wrapped in one layer of double quotes. -/
def dq (s : JSString) : JSString := 34 :: (s ++ [34])

/-- Engine-side identifier parsing: one layer of surrounding double quotes
is stripped (no embedded quote allowed inside), a bare identifier must be
nonempty and quote-free; anything else is a syntax error at prepare time. -/
def unquoteId (s : JSString) : Option JSString :=
  match s with
  | 34 :: rest =>
    if rest.getLast? == some 34 && !(rest.dropLast.contains 34) then some rest.dropLast
    else none
  | _ => if !(s.contains 34) && !s.isEmpty then some s else none

/-- Values `better-sqlite3` refuses to bind to a placeholder: booleans and
objects. -/
def badBind (v : JsVal) : Bool :=
  match v with
  | .obj _ => true
  | .bool _ => true
  | _ => false

/-- SQL `=` on stored/bound values: `NULL` never compares equal, otherwise
same-typed values compare structurally (bound values are scalars). -/
def sqlEq (a b : JsVal) : Bool :=
  match a, b with
  | .null, _ => false
  | _, .null => false
  | .str x, .str y => x == y
  | .num x, .num y => x == y
  | .bool x, .bool y => x == y
  | _, _ => false

/-- Value of column `c` in row `r`; a column the row does not mention is
`NULL`. -/
def lookupVal (r : JsObj) (c : JSString) : JsVal := (r.lookup c).getD .null

/-- Whether a row satisfies an equality filter (`WHERE c1 = ? AND …`). -/
def rowMatches (r : JsObj) (filter : JsObj) : Bool :=
  filter.all (fun p => sqlEq (lookupVal r p.1) p.2)

/-- Find a table by name. -/
def lookupTable (db : DbState) (name : JSString) : Option TableData := db.lookup name

/-- Affinity of column `c` in table `td` (BLOB, i.e. none, if absent —
the engine checks column existence before using this). -/
def affOf (td : TableData) (c : JSString) : Affinity :=
  ((td.cols.find? (fun d => d.1 == c)).map (fun d => d.2)).getD .blob

/-- Replace the data of table `name`. -/
def updateTableData (db : DbState) (name : JSString) (td : TableData) : DbState :=
  db.map (fun e => if e.1 == name then (name, td) else e)

/-- A prepared statement, by its parsed meaning: identifier text is kept
as interpolated (still double-quoted) and parsed at execution, bound
values are kept positionally. -/
inductive Stmt where
  | createTable (rawTable : JSString) (colDefs : List (JSString × JSString))
  | insertRow (rawTable : JSString) (rawCols : List JSString) (vals : List JsVal)
  | updateRows (rawTable : JSString) (rawSetCols rawWhereCols : List JSString) (vals : List JsVal)

/-- Execute one write statement against a database state.  Stored values
receive the target column's type affinity; a `WHERE col = ?` comparison
applies the column's affinity to the bound (affinity-free) value. -/
def execStmt (db : DbState) : Stmt → Except SqlErr DbState
  | .createTable rawTable colDefs =>
    match unquoteId rawTable with
    | none => .error .syntaxError
    | some name =>
      if colDefs.isEmpty then .error .syntaxError
      else
        match colDefs.mapM (fun p => (unquoteId p.1).map (fun n => (n, columnAffinity p.2))) with
        | none => .error .syntaxError
        | some cols =>
          match lookupTable db name with
          | some _ => .ok db
          | none => .ok (db ++ [(name, ⟨cols, []⟩)])
  | .insertRow rawTable rawCols vals =>
    match unquoteId rawTable with
    | none => .error .syntaxError
    | some name =>
      match lookupTable db name with
      | none => .error .noSuchTable
      | some td =>
        match rawCols.mapM unquoteId with
        | none => .error .syntaxError
        | some cols =>
          if cols.length != vals.length then .error .badBinding
          else if vals.any badBind then .error .badBinding
          else if cols.any (fun c => !(td.cols.any (fun d => d.1 == c))) then .error .noSuchColumn
          else
            let row := (cols.zip vals).map (fun e => (e.1, applyAffinity (affOf td e.1) e.2))
            .ok (updateTableData db name ⟨td.cols, td.rows ++ [row]⟩)
  | .updateRows rawTable rawSetCols rawWhereCols vals =>
    match unquoteId rawTable with
    | none => .error .syntaxError
    | some name =>
      match lookupTable db name with
      | none => .error .noSuchTable
      | some td =>
        match rawSetCols.mapM unquoteId, rawWhereCols.mapM unquoteId with
        | some setCols, some whereCols =>
          if setCols.length + whereCols.length != vals.length then .error .badBinding
          else if vals.any badBind then .error .badBinding
          else if (setCols ++ whereCols).any (fun c => !(td.cols.any (fun d => d.1 == c))) then
            .error .noSuchColumn
          else
            let setKVs := (setCols.zip (vals.take setCols.length)).map
              (fun e => (e.1, applyAffinity (affOf td e.1) e.2))
            let filter := (whereCols.zip (vals.drop setCols.length)).map
              (fun e => (e.1, applyAffinity (affOf td e.1) e.2))
            let newRows := td.rows.map (fun r =>
              if rowMatches r filter then setKVs.foldl (fun acc p => setKey acc p.1 p.2) r else r)
            .ok (updateTableData db name ⟨td.cols, newRows⟩)
        | _, _ => .error .syntaxError

/-- Execute a `SELECT * FROM t WHERE c1 = ? AND …` (read-only): each
bound comparison value receives the column's affinity, and each returned
row shows every table column, absent values as `NULL`. -/
def execSelect (db : DbState) (rawTable : JSString) (rawCols : List JSString)
    (vals : List JsVal) : Except SqlErr (List JsObj) :=
  match unquoteId rawTable with
  | none => .error .syntaxError
  | some name =>
    match lookupTable db name with
    | none => .error .noSuchTable
    | some td =>
      match rawCols.mapM unquoteId with
      | none => .error .syntaxError
      | some cols =>
        if cols.length != vals.length then .error .badBinding
        else if vals.any badBind then .error .badBinding
        else if cols.any (fun c => !(td.cols.any (fun d => d.1 == c))) then .error .noSuchColumn
        else
          let filter := (cols.zip vals).map (fun e => (e.1, applyAffinity (affOf td e.1) e.2))
          .ok ((td.rows.filter (fun r => rowMatches r filter)).map
            (fun r => td.cols.map (fun d => (d.1, lookupVal r d.1))))

/-- A `better-sqlite3` connection: the live database state and, when a
transaction is open, the state a rollback (or process interruption before
`COMMIT`) restores. -/
structure Conn where
  db : DbState
  txnBase : Option DbState

/-- The durable state: what a reader sees after an interruption (an open,
never-committed transaction is rolled back). -/
def observable (c : Conn) : DbState := c.txnBase.getD c.db

/-- Run `BEGIN [EXCLUSIVE] TRANSACTION;` (exclusivity is a locking concern
invisible in this single-connection model): fails when a transaction is
already open. -/
def runBegin (c : Conn) : Conn × Option SqlErr :=
  match c.txnBase with
  | some _ => (c, some .nestedTxn)
  | none => (⟨c.db, some c.db⟩, none)

/-- Run `COMMIT TRANSACTION;`: makes the live state durable. -/
def runCommit (c : Conn) : Conn × Option SqlErr :=
  match c.txnBase with
  | none => (c, some .noTxn)
  | some _ => (⟨c.db, none⟩, none)

/-- Run one prepared write statement; a failing statement changes nothing
(statement-level atomicity) and leaves any open transaction open. -/
def runStmt (c : Conn) (st : Stmt) : Conn × Option SqlErr :=
  match execStmt c.db st with
  | .ok db' => (⟨db', c.txnBase⟩, none)
  | .error e => (c, some e)

/-- Sequence two steps the way JavaScript control flow does: a thrown
error propagates and the continuation is never reached. -/
def seqOp (step : Conn × Option SqlErr) (next : Conn → Conn × Option SqlErr) : Conn × Option SqlErr :=
  match step with
  | (c, some e) => (c, some e)
  | (c, none) => next c

namespace SqliteDatabase

/-- A column name as interpolated into SQL text by the facade:
`quote` in identifier mode, then string conversion (always a double-quoted
string, since keys are strings). -/
def quoteKeyRaw (k : JSString) : JSString := jsToString (quote (.str k))

/-- The `insert` method: prepares the built insertion query (an empty
flattened row yields `() VALUES ()`, a syntax error at prepare time),
quotes the flattened values in literal mode, and runs
`BEGIN` / statement / `COMMIT`, any thrown error propagating at once. -/
def insert (c : Conn) (table : JSString) (params : JsObj := []) : Conn × Option SqlErr :=
  let flattenedItem := flattenObj params
  if flattenedItem.isEmpty then (c, some .syntaxError)
  else
    let vals := quoteAll (flattenedItem.map (fun p => p.2)) false
    let st := Stmt.insertRow (dq table) (flattenedItem.map (fun p => quoteKeyRaw p.1)) vals
    seqOp (runBegin c) (fun c1 => seqOp (runStmt c1 st) runCommit)

/-- The `find` method: runs the built select query with the flattened
filter values quoted in literal mode and bound positionally, then
unescapes every returned row. -/
def find (c : Conn) (table : JSString) (params : JsObj := []) : Except SqlErr (List JsObj) :=
  let flattenedItem := flattenObj params
  let vals := quoteAll (flattenedItem.map (fun p => p.2)) false
  match execSelect c.db (dq table) (flattenedItem.map (fun p => quoteKeyRaw p.1)) vals with
  | .error e => .error e
  | .ok rows => .ok (rows.map dequoteEntries)

/-- The `findOne` method: like `find` but through `Statement.get`, which
returns the first row or `undefined`, then `dequoteAll`. -/
def findOne (c : Conn) (table : JSString) (params : JsObj := []) : Except SqlErr (Option JsObj) :=
  let flattenedItem := flattenObj params
  let vals := quoteAll (flattenedItem.map (fun p => p.2)) false
  match execSelect c.db (dq table) (flattenedItem.map (fun p => quoteKeyRaw p.1)) vals with
  | .error e => .error e
  | .ok rows => .ok (dequoteAll rows.head?)

/-- The bound parameter list computed by `update`: `Object.assign` merges
the flattened filter mapping into the flattened value mapping (overwriting
the value, in place, of any shared key), the merge is flattened once more
and its values are quoted in literal mode. -/
def updateValues (valueParams whereParams : JsObj) : List JsVal :=
  let params := (flattenObj whereParams).foldl (fun acc p => setKey acc p.1 p.2) (flattenObj valueParams)
  quoteAll ((flattenObj params).map (fun p => p.2)) false

/-- The `update` method: prepares the built update query (an empty WHERE
clause leaves the stray-quote malformed statement and an empty SET clause
is likewise invalid, each a syntax error at prepare time), computes the
`Object.assign`-merged bound values, and runs `BEGIN` / statement /
`COMMIT`.  The SET and WHERE column lists are those the query emitted:
keys of the doubly flattened mappings. -/
def update (c : Conn) (table : JSString) (valueParams whereParams : JsObj) : Conn × Option SqlErr :=
  let flattenedValues := flattenObj valueParams
  let flattenedWhere := flattenObj whereParams
  if (buildParamString flattenedWhere).isEmpty
      || (buildParamString flattenedValues (jstr ", ")).isEmpty then
    (c, some .syntaxError)
  else
    let st := Stmt.updateRows (dq table)
      ((flattenObj flattenedValues).map (fun p => quoteKeyRaw p.1))
      ((flattenObj flattenedWhere).map (fun p => quoteKeyRaw p.1))
      (updateValues valueParams whereParams)
    seqOp (runBegin c) (fun c1 => seqOp (runStmt c1 st) runCommit)

/-- Statement loop of `atomicQuery`: run each prepared query in order,
a thrown error propagating at once. -/
def runQueries (c : Conn) : List Stmt → Conn × Option SqlErr
  | [] => (c, none)
  | q :: rest => seqOp (runStmt c q) (fun c1 => runQueries c1 rest)

/-- The `atomicQuery` method: all given statements inside one exclusive
transaction, committed together. -/
def atomicQuery (c : Conn) (queries : List Stmt) : Conn × Option SqlErr :=
  seqOp (runBegin c) (fun c1 => seqOp (runQueries c1 queries) runCommit)

/-- One entry of a Schema Descriptor: a table name and its (column name,
declared type) pairs. -/
structure TableDef where
  tableName : JSString
  columns : List (JSString × JSString)

/-- The in-place effect of `initTables` on one schema entry: the loop body
executes `v[0] = this.quote(v[0])` on every column tuple, replacing each
column name by its double-quoted form in the caller's structure. -/
def mutateTable (t : TableDef) : TableDef :=
  ⟨t.tableName, t.columns.map (fun v => (quoteKeyRaw v.1, v.2))⟩

/-- The `CREATE TABLE` text `initTables` builds for one (already mutated)
schema entry: each column rendered as `v.join(' ')`, the list joined with
commas. -/
def createTableSql (t : TableDef) : JSString :=
  let columnString := List.intercalate (jstr ", ") (t.columns.map (fun v => v.1 ++ 32 :: v.2))
  jstr "CREATE TABLE IF NOT EXISTS \x22" ++ t.tableName ++ jstr "\x22 (" ++ columnString ++ jstr ");"

/-- Table loop of `initTables`: mutate the entry, prepare and run its
`CREATE TABLE IF NOT EXISTS` statement, stop at the first thrown error.
Returns the final connection, the propagated error if any, and the schema
list as the caller's mutated structure ends up. -/
def initTablesGo (c : Conn) : List TableDef → Conn × Option SqlErr × List TableDef
  | [] => (c, none, [])
  | t :: rest =>
    let t' := mutateTable t
    match runStmt c (.createTable (dq t.tableName) t'.columns) with
    | (c1, some e) => (c1, some e, t' :: rest)
    | (c1, none) =>
      let r := initTablesGo c1 rest
      (r.1, r.2.1, t' :: r.2.2)

/-- The `initTables` method: one exclusive transaction around the
idempotent per-table creation statements. -/
def initTables (c : Conn) (schema : List TableDef) : Conn × Option SqlErr × List TableDef :=
  match runBegin c with
  | (c1, some e) => (c1, some e, schema)
  | (c1, none) =>
    match initTablesGo c1 schema with
    | (c2, some e, schema') => (c2, some e, schema')
    | (c2, none, schema') =>
      let r := runCommit c2
      (r.1, r.2, schema')

/-- Whether a value is an object (the `typeof obj[key] == 'object' &&
obj[key] !== null` test of `flattenObj`, as a predicate on `JsVal`). -/
def isObjV : JsVal → Bool
  | .obj _ => true
  | _ => false

/-- Whether a value is a string. -/
def isStringV : JsVal → Bool
  | .str _ => true
  | _ => false

/-- Reference description of flattening, following the specification's
words: the leaf entries of a nested mapping, in visit order, each keyed by
the concatenation of its ancestor keys joined by an underscore, each
keeping its leaf value.  `flattenObj` is compared against this. -/
def leafEntries (obj : JsObj) (parent : JSString := []) : JsObj :=
  match obj with
  | [] => []
  | (key, v) :: rest =>
    let propName := if parent.isEmpty then key else parent ++ 95 :: key
    match v with
    | .obj fields => leafEntries fields propName ++ leafEntries rest parent
    | _ => (propName, v) :: leafEntries rest parent

example :
    let c0 : Conn := ⟨[], none⟩
    let r := initTables c0 [⟨jstr "t", [(jstr "c", jstr "TEXT")]⟩]
    let r2 := insert r.1 (jstr "t") [(jstr "c", .num 5)]
    r.2.1 = none ∧ r2.2 = none ∧
      findOne r2.1 (jstr "t") [(jstr "c", .num 5)] = .ok (some [(jstr "c", .str (jstr "5"))]) := by
  simp only [initTables, initTablesGo, insert, findOne, flattenObj, setKey]
  exact ⟨rfl, rfl, rfl⟩

example :
    let c0 : Conn := ⟨[], none⟩
    let r := initTables c0 [⟨jstr "t", [(jstr "c", jstr "INTEGER")]⟩]
    let r2 := insert r.1 (jstr "t") [(jstr "c", .num 5)]
    r.2.1 = none ∧ r2.2 = none ∧
      findOne r2.1 (jstr "t") [(jstr "c", .num 5)] = .ok (some [(jstr "c", .num 5)]) := by
  simp only [initTables, initTablesGo, insert, findOne, flattenObj, setKey]
  exact ⟨rfl, rfl, rfl⟩

end SqliteDatabase

/-- Run statements in sequence on a bare database state: `some` of the
final state when every statement succeeds, `none` as soon as one fails. -/
def applyStmts (db : DbState) : List Stmt → Option DbState
  | [] => some db
  | q :: rest =>
    match execStmt db q with
    | .ok db' => applyStmts db' rest
    | .error _ => none

/-- Reopening the database after a process interruption: an open,
never-committed transaction has been rolled back, so the connection starts
from the durable state. -/
def recover (c : Conn) : Conn := ⟨observable c, none⟩

theorem escapeSafe_ne37 {c : Nat} (h : escapeSafe c = true) : c ≠ 37 := by
  simp [escapeSafe] at h
  omega

theorem isHexDigit_bounds {c : Nat} (h : isHexDigit c = true) : 48 ≤ c ∧ c ≤ 102 := by
  simp [isHexDigit] at h
  omega

theorem hexDigit_isHex {n : Nat} (h : n < 16) : isHexDigit (hexDigit n) = true := by
  unfold hexDigit isHexDigit
  split_ifs <;> simp <;> omega

theorem hexVal_hexDigit {n : Nat} (h : n < 16) : hexVal (hexDigit n) = n := by
  unfold hexDigit hexVal
  split_ifs <;> omega

theorem unescapeF_nil (fuel : Nat) : unescapeF fuel [] = [] := by
  cases fuel <;> rfl

theorem unescapeF_cons_ne {c : Nat} (fuel : Nat) (s : JSString) (h : c ≠ 37) :
    unescapeF (fuel + 1) (c :: s) = c :: unescapeF fuel s := by
  simp [unescapeF, h]

theorem unescapeF_hexu (fuel a b d e : Nat) (s : JSString)
    (ha : isHexDigit a = true) (hb : isHexDigit b = true)
    (hd : isHexDigit d = true) (he : isHexDigit e = true) :
    unescapeF (fuel + 1) (37 :: 117 :: a :: b :: d :: e :: s)
      = (hexVal a * 4096 + hexVal b * 256 + hexVal d * 16 + hexVal e) :: unescapeF fuel s := by
  simp [unescapeF, ha, hb, hd, he]

theorem unescapeF_hex2 (fuel a b : Nat) (s : JSString)
    (ha : isHexDigit a = true) (hb : isHexDigit b = true) :
    unescapeF (fuel + 1) (37 :: a :: b :: s) = (hexVal a * 16 + hexVal b) :: unescapeF fuel s := by
  have ha' : a ≠ 117 := by
    have := isHexDigit_bounds ha
    omega
  simp only [unescapeF]
  split
  all_goals simp_all

theorem unescapeF_escape (s : JSString) :
    ∀ fuel, (escape s).length ≤ fuel → (∀ u ∈ s, u < 65536) →
      unescapeF fuel (escape s) = s := by
  induction s with
  | nil => intro fuel _ _; exact unescapeF_nil fuel
  | cons c s ih =>
    intro fuel hlen hwf
    have hc : c < 65536 := hwf c (List.mem_cons_self c s)
    have hwf' : ∀ u ∈ s, u < 65536 := fun u hu => hwf u (List.mem_cons_of_mem c hu)
    have hesc : escape (c :: s) = escapeChar c ++ escape s := by
      simp [escape]
    rw [hesc] at hlen ⊢
    by_cases hsafe : escapeSafe c = true
    · have hch : escapeChar c = [c] := by simp [escapeChar, hsafe]
      rw [hch] at hlen ⊢
      obtain ⟨f, rfl⟩ : ∃ f, fuel = f + 1 := by
        cases fuel with
        | zero => simp at hlen
        | succ f => exact ⟨f, rfl⟩
      rw [List.singleton_append, unescapeF_cons_ne f _ (escapeSafe_ne37 hsafe)]
      have : (escape s).length ≤ f := by
        simpa using Nat.le_of_succ_le_succ hlen
      rw [ih f this hwf']
    · by_cases h256 : c < 256
      · have hch : escapeChar c = [37, hexDigit (c / 16), hexDigit (c % 16)] := by
          simp [escapeChar, hsafe, h256]
        rw [hch] at hlen ⊢
        obtain ⟨f, rfl⟩ : ∃ f, fuel = f + 1 := by
          cases fuel with
          | zero => simp at hlen
          | succ f => exact ⟨f, rfl⟩
        have d1 : c / 16 < 16 := by omega
        have d2 : c % 16 < 16 := by omega
        rw [List.cons_append, List.cons_append, List.cons_append, List.nil_append,
          unescapeF_hex2 f _ _ _ (hexDigit_isHex d1) (hexDigit_isHex d2),
          hexVal_hexDigit d1, hexVal_hexDigit d2]
        have : (escape s).length ≤ f := by
          simp at hlen
          omega
        rw [ih f this hwf']
        congr 1
        omega
      · have hch : escapeChar c = [37, 117, hexDigit (c / 4096 % 16), hexDigit (c / 256 % 16),
            hexDigit (c / 16 % 16), hexDigit (c % 16)] := by
          simp [escapeChar, hsafe, h256]
        rw [hch] at hlen ⊢
        obtain ⟨f, rfl⟩ : ∃ f, fuel = f + 1 := by
          cases fuel with
          | zero => simp at hlen
          | succ f => exact ⟨f, rfl⟩
        have d1 : c / 4096 % 16 < 16 := by omega
        have d2 : c / 256 % 16 < 16 := by omega
        have d3 : c / 16 % 16 < 16 := by omega
        have d4 : c % 16 < 16 := by omega
        simp only [List.cons_append, List.nil_append]
        rw [unescapeF_hexu f _ _ _ _ _ (hexDigit_isHex d1) (hexDigit_isHex d2)
            (hexDigit_isHex d3) (hexDigit_isHex d4),
          hexVal_hexDigit d1, hexVal_hexDigit d2, hexVal_hexDigit d3, hexVal_hexDigit d4]
        have : (escape s).length ≤ f := by
          simp at hlen
          omega
        rw [ih f this hwf']
        congr 1
        omega

theorem unescape_escape (s : JSString) (h : ∀ u ∈ s, u < 65536) :
    unescape (escape s) = s :=
  unescapeF_escape s (escape s).length le_rfl h

theorem unescapeF_no_percent :
    ∀ (s : JSString) (fuel : Nat), 37 ∉ s → unescapeF fuel s = s := by
  intro s
  induction s with
  | nil => intro fuel _; exact unescapeF_nil fuel
  | cons c rest ih =>
    intro fuel h
    cases fuel with
    | zero => rfl
    | succ f =>
      rw [unescapeF_cons_ne f rest (fun hc => h (hc ▸ List.mem_cons_self c rest)),
        ih f (fun hm => h (List.mem_cons_of_mem c hm))]

theorem unescape_no_percent (s : JSString) (h : 37 ∉ s) : unescape s = s :=
  unescapeF_no_percent s s.length h

theorem natTextGo_mem : ∀ (fuel n : Nat) (u : Nat), u ∈ natTextGo fuel n → 48 ≤ u ∧ u ≤ 57 := by
  intro fuel
  induction fuel with
  | zero => intro n u h; exact absurd h (List.not_mem_nil u)
  | succ f ih =>
    intro n u h
    rw [natTextGo] at h
    split at h
    · rw [List.mem_singleton] at h
      omega
    · rcases List.mem_append.1 h with h1 | h1
      · exact ih (n / 10) u h1
      · rw [List.mem_singleton] at h1
        omega

theorem intToText_no_percent (n : Int) : 37 ∉ intToText n := by
  intro h
  cases n with
  | ofNat m =>
    have := natTextGo_mem (m + 1) m 37 h
    omega
  | negSucc m =>
    rcases List.mem_cons.1 h with h1 | h1
    · omega
    · have := natTextGo_mem (m + 2) (m + 1) 37 h1
      omega

namespace SqliteDatabase

/-- C1, counterexample: at the string value `"a"`, literal-mode `quote`
returns the bare percent-encoded string, not the percent-encoding wrapped
in single quotes as the claim states. -/
theorem c1_literal_mode_counterexample :
    quote (.str (jstr "a")) false = .str (jstr "a") ∧
      quote (.str (jstr "a")) false ≠ .str (39 :: (escape (jstr "a") ++ [39])) := by
  constructor
  · rfl
  · intro h
    simp [quote, escape, escapeChar, escapeSafe, jstr] at h

/-- C1, amended: in literal mode (identifier flag false) the surrounding
quote characters are the empty string, so a string value is rendered as its
percent-encoding with no quotes at all; `null` renders as the string
`null`, `true` and `false` render as the integers 1 and 0, and numeric
values are returned unchanged. -/
theorem c1_literal_mode :
    (∀ s : JSString, quote (.str s) false = .str (escape s)) ∧
      quote .null false = .str (jstr "null") ∧
      quote (.bool true) false = .num 1 ∧
      quote (.bool false) false = .num 0 ∧
      (∀ n : Int, quote (.num n) false = .num n) := by
  refine ⟨fun s => ?_, rfl, rfl, rfl, fun n => rfl⟩
  simp [quote]

/-- C4: literal-mode encoding round-trips (`unescape` after `escape`
recovers any string of UTF-16 code units), and `dequoteAll` maps
`unescape` over exactly the string-valued fields of a row, passing a
missing row and non-string fields through unchanged; consequently a field
encoded by the literal quoting path decodes back to the original string. -/
theorem c4_decode_encode_roundtrip :
    (∀ s : JSString, (∀ u ∈ s, u < 65536) → unescape (escape s) = s) ∧
      dequoteAll none = none ∧
      (∀ (r : JsObj) (k s : JSString),
        dequoteAll (some ((k, .str s) :: r)) = some ((k, .str (unescape s)) :: dequoteEntries r)) ∧
      (∀ (r : JsObj) (k : JSString) (v : JsVal), isStringV v = false →
        dequoteAll (some ((k, v) :: r)) = some ((k, v) :: dequoteEntries r)) ∧
      (∀ (r : JsObj) (k s : JSString), (∀ u ∈ s, u < 65536) →
        dequoteEntries ((k, quote (.str s) false) :: r) = (k, .str s) :: dequoteEntries r) := by
  refine ⟨unescape_escape, rfl, fun r k s => rfl, fun r k v hv => ?_, fun r k s hs => ?_⟩
  · cases v <;> simp_all [dequoteAll, dequoteEntries, isStringV]
  · simp [quote, dequoteEntries, unescape_escape s hs]

/-- C4, witness: the round trip and the encoded-field decode evaluated at
the concrete string `"a b%"` (space and percent sign need encoding). -/
theorem c4_decode_encode_roundtrip_witness :
    unescape (escape (jstr "a b%")) = jstr "a b%" ∧
      dequoteEntries [(jstr "k", quote (.str (jstr "a b%")) false)] = [(jstr "k", .str (jstr "a b%"))] := by
  exact ⟨c4_decode_encode_roundtrip.1 (jstr "a b%") (by decide),
    c4_decode_encode_roundtrip.2.2.2.2 [] (jstr "k") (jstr "a b%") (by decide)⟩

end SqliteDatabase

namespace SqliteDatabase

theorem flattenObj_nil (p : JSString) (r : JsObj) : flattenObj [] p r = r := by
  simp [flattenObj]

theorem flattenObj_cons_obj (k : JSString) (fields rest : JsObj) (p : JSString) (r : JsObj) :
    flattenObj ((k, .obj fields) :: rest) p r
      = flattenObj rest p (flattenObj fields (if p.isEmpty then k else p ++ 95 :: k) r) := by
  simp [flattenObj]

theorem flattenObj_cons_nonobj (k : JSString) (v : JsVal) (rest : JsObj) (p : JSString)
    (r : JsObj) (hv : isObjV v = false) :
    flattenObj ((k, v) :: rest) p r
      = flattenObj rest p (setKey r (if p.isEmpty then k else p ++ 95 :: k) v) := by
  cases v <;> simp_all [flattenObj, isObjV]

theorem leafEntries_nil (p : JSString) : leafEntries [] p = [] := by
  simp [leafEntries]

theorem leafEntries_cons_obj (k : JSString) (fields rest : JsObj) (p : JSString) :
    leafEntries ((k, .obj fields) :: rest) p
      = leafEntries fields (if p.isEmpty then k else p ++ 95 :: k) ++ leafEntries rest p := by
  simp [leafEntries]

theorem leafEntries_cons_nonobj (k : JSString) (v : JsVal) (rest : JsObj) (p : JSString)
    (hv : isObjV v = false) :
    leafEntries ((k, v) :: rest) p
      = (if p.isEmpty then k else p ++ 95 :: k, v) :: leafEntries rest p := by
  cases v <;> simp_all [leafEntries, isObjV]

theorem flattenObj_eq_foldl (obj : JsObj) (p : JSString) (r : JsObj) :
    flattenObj obj p r = (leafEntries obj p).foldl (fun acc q => setKey acc q.1 q.2) r := by
  refine flattenObj.induct
    (fun obj p r => flattenObj obj p r = (leafEntries obj p).foldl (fun acc q => setKey acc q.1 q.2) r)
    ?_ ?_ ?_ obj p r
  · intro parent res
    simp [flattenObj_nil, leafEntries_nil]
  · intro parent res key rest propName fields ih1 ih2 ih3
    have hp : propName = (if List.isEmpty parent = true then key else parent ++ 95 :: key) := rfl
    simp only [dite_eq_ite] at ih2
    rw [hp] at ih3
    rw [flattenObj_cons_obj, leafEntries_cons_obj, List.foldl_append, ih2]
    rw [ih2] at ih3
    exact ih3
  · intro parent res key v rest propName hne ih
    have hv : isObjV v = false := by
      cases v <;> simp [isObjV]
      exact hne _ rfl
    have hp : propName = (if List.isEmpty parent = true then key else parent ++ 95 :: key) := rfl
    rw [hp] at ih
    rw [flattenObj_cons_nonobj _ _ _ _ _ hv, leafEntries_cons_nonobj _ _ _ _ hv, List.foldl_cons]
    exact ih


theorem mem_setKey {q : JSString × JsVal} {res : JsObj} {k : JSString} {v : JsVal}
    (h : q ∈ setKey res k v) : q ∈ res ∨ q = (k, v) := by
  unfold setKey at h
  split at h
  · obtain ⟨a, ha, hq⟩ := List.mem_map.1 h
    by_cases hk : (a.1 == k) = true
    · right
      rw [if_pos hk] at hq
      exact hq.symm
    · left
      rw [if_neg hk] at hq
      exact hq ▸ ha
  · rcases List.mem_append.1 h with h1 | h1
    · exact Or.inl h1
    · exact Or.inr (List.mem_singleton.1 h1)

theorem setKey_of_not_mem {res : JsObj} {k : JSString} (v : JsVal)
    (h : k ∉ res.map (fun p => p.1)) : setKey res k v = res ++ [(k, v)] := by
  unfold setKey
  rw [if_neg]
  simp only [List.any_eq_true, beq_iff_eq, not_exists]
  intro p
  intro hp
  exact h (List.mem_map.2 ⟨p, hp.1, hp.2⟩)

theorem keys_setKey_replace {res : JsObj} {k : JSString} (v : JsVal)
    (hany : res.any (fun p => p.1 == k) = true) :
    (setKey res k v).map (fun p => p.1) = res.map (fun p => p.1) := by
  unfold setKey
  rw [if_pos hany, List.map_map]
  apply List.map_congr_left
  intro p hp
  by_cases hk : (p.1 == k) = true
  · simp only [Function.comp_apply, if_pos hk]
    exact (beq_iff_eq.1 hk).symm
  · simp only [Function.comp_apply, if_neg hk]

theorem nodup_keys_setKey {res : JsObj} (k : JSString) (v : JsVal)
    (h : (res.map (fun p => p.1)).Nodup) :
    ((setKey res k v).map (fun p => p.1)).Nodup := by
  by_cases hany : res.any (fun p => p.1 == k) = true
  · rw [keys_setKey_replace v hany]
    exact h
  · have hk : k ∉ res.map (fun p => p.1) := by
      intro hmem
      obtain ⟨p, hp, hpk⟩ := List.mem_map.1 hmem
      exact hany (List.any_eq_true.2 ⟨p, hp, beq_iff_eq.2 hpk⟩)
    rw [setKey_of_not_mem v hk]
    simp only [List.map_append, List.map_cons, List.map_nil]
    rw [List.nodup_append]
    refine ⟨h, List.nodup_singleton k, ?_⟩
    intro a ha hak
    rw [List.mem_singleton] at hak
    exact hk (hak ▸ ha)

theorem mem_foldl_setKey :
    ∀ (l acc : JsObj) (q : JSString × JsVal),
      q ∈ l.foldl (fun a e => setKey a e.1 e.2) acc → q ∈ acc ∨ q ∈ l := by
  intro l
  induction l with
  | nil => exact fun acc q h => Or.inl h
  | cons e rest ih =>
    intro acc q h
    rcases ih _ q h with h1 | h1
    · rcases mem_setKey h1 with h2 | h2
      · exact Or.inl h2
      · right
        rw [h2]
        exact List.mem_cons_self e rest
    · exact Or.inr (List.mem_cons_of_mem _ h1)

theorem foldl_setKey_fresh :
    ∀ (l acc : JsObj),
      (∀ k ∈ l.map (fun p => p.1), k ∉ acc.map (fun p => p.1)) →
      (l.map (fun p => p.1)).Nodup →
      l.foldl (fun a e => setKey a e.1 e.2) acc = acc ++ l := by
  intro l
  induction l with
  | nil => simp
  | cons e rest ih =>
    intro acc hdisj hnodup
    simp only [List.foldl_cons]
    rw [setKey_of_not_mem e.2 (hdisj e.1 (by simp))]
    simp only [List.map_cons, List.nodup_cons] at hnodup
    rw [ih (acc ++ [(e.1, e.2)]) ?_ hnodup.2]
    · simp
    · intro a ha
      simp only [List.map_append, List.map_cons, List.map_nil, List.mem_append,
        List.mem_singleton, not_or]
      refine ⟨hdisj a (by simp [ha]), ?_⟩
      intro hae
      exact hnodup.1 (hae ▸ ha)

theorem nodup_keys_foldl_setKey :
    ∀ (l acc : JsObj), (acc.map (fun p => p.1)).Nodup →
      ((l.foldl (fun a e => setKey a e.1 e.2) acc).map (fun p => p.1)).Nodup := by
  intro l
  induction l with
  | nil => exact fun acc h => h
  | cons e rest ih =>
    intro acc h
    exact ih _ (nodup_keys_setKey e.1 e.2 h)

theorem flattenObj_keys_nodup (obj : JsObj) :
    ((flattenObj obj).map (fun p => p.1)).Nodup := by
  rw [show flattenObj obj = flattenObj obj [] [] from rfl, flattenObj_eq_foldl]
  exact nodup_keys_foldl_setKey _ _ List.nodup_nil

theorem leafEntries_flat (l : JsObj) (hv : ∀ p ∈ l, isObjV p.2 = false) :
    leafEntries l [] = l := by
  induction l with
  | nil => exact leafEntries_nil []
  | cons e rest ih =>
    have he : isObjV e.2 = false := hv e (List.mem_cons_self e rest)
    rw [show e = (e.1, e.2) from rfl, leafEntries_cons_nonobj e.1 e.2 rest [] he]
    simp only [List.isEmpty_nil, if_pos]
    rw [ih (fun p hp => hv p (List.mem_cons_of_mem e hp))]

theorem flattenObj_flat (l : JsObj) (hv : ∀ p ∈ l, isObjV p.2 = false)
    (hk : (l.map (fun p => p.1)).Nodup) : flattenObj l = l := by
  rw [show flattenObj l = flattenObj l [] [] from rfl, flattenObj_eq_foldl, leafEntries_flat l hv]
  rw [foldl_setKey_fresh l [] (by simp) hk]
  simp

theorem leafEntries_nonObj (obj : JsObj) (parent : JSString) :
    ∀ p ∈ leafEntries obj parent, isObjV p.2 = false := by
  refine leafEntries.induct (fun obj parent => ∀ p ∈ leafEntries obj parent, isObjV p.2 = false)
    ?_ ?_ ?_ obj parent
  · intro parent p hp
    rw [leafEntries_nil] at hp
    exact absurd hp (List.not_mem_nil p)
  · intro parent key rest propName fields ih1 ih2 p hp
    have hpn : propName = (if List.isEmpty parent = true then key else parent ++ 95 :: key) := rfl
    rw [hpn] at ih1
    rw [leafEntries_cons_obj] at hp
    rcases List.mem_append.1 hp with h | h
    · exact ih1 p h
    · exact ih2 p h
  · intro parent key v rest hne ih p hp
    have hv : isObjV v = false := by
      cases v <;> simp [isObjV]
      exact hne _ rfl
    rw [leafEntries_cons_nonobj _ _ _ _ hv] at hp
    rcases List.mem_cons.1 hp with h | h
    · rw [h]
      exact hv
    · exact ih p h

/-- C8: flattening is deterministic; it equals the left fold of
JavaScript property assignment over the specification's leaf-entry list
(underscore-joined ancestor-key paths with their leaf values); every
output entry is one of those leaf entries (so keys are underscore-joined
paths, values keep their leaf type and are never objects); it is the
identity on an already-flat mapping; and when no two leaf paths collide it
returns exactly the leaf-entry list. -/
theorem c8_flatten_characterization :
    (∀ x y : JsObj, x = y → flattenObj x = flattenObj y) ∧
      (∀ (obj : JsObj) (p : JSString) (r : JsObj),
        flattenObj obj p r = (leafEntries obj p).foldl (fun acc q => setKey acc q.1 q.2) r) ∧
      (∀ (obj : JsObj) (q : JSString × JsVal), q ∈ flattenObj obj → q ∈ leafEntries obj []) ∧
      (∀ (obj : JsObj) (q : JSString × JsVal), q ∈ flattenObj obj → isObjV q.2 = false) ∧
      (∀ l : JsObj, (∀ p ∈ l, isObjV p.2 = false) → (l.map (fun p => p.1)).Nodup →
        flattenObj l = l) ∧
      (∀ obj : JsObj, ((leafEntries obj []).map (fun p => p.1)).Nodup →
        flattenObj obj = leafEntries obj []) := by
  have hmem : ∀ (obj : JsObj) (q : JSString × JsVal), q ∈ flattenObj obj → q ∈ leafEntries obj [] := by
    intro obj q hq
    rw [show flattenObj obj = flattenObj obj [] [] from rfl, flattenObj_eq_foldl] at hq
    rcases mem_foldl_setKey _ _ _ hq with h | h
    · exact absurd h (List.not_mem_nil q)
    · exact h
  refine ⟨fun x y h => h ▸ rfl, flattenObj_eq_foldl, hmem, ?_, flattenObj_flat, ?_⟩
  · intro obj q hq
    exact leafEntries_nonObj obj [] q (hmem obj q hq)
  · intro obj hnodup
    rw [show flattenObj obj = flattenObj obj [] [] from rfl, flattenObj_eq_foldl,
      foldl_setKey_fresh _ [] (by simp) hnodup]
    simp

/-- C8, witness: flattening is the identity on the already-flat mapping
`\x7ba: 1, b: null\x7d`, and on `\x7ba: \x7bb: 1\x7d\x7d` (no collisions) it returns exactly
the leaf-entry list. -/
theorem c8_flatten_characterization_witness :
    flattenObj [(jstr "a", JsVal.num 1), (jstr "b", JsVal.null)]
        = [(jstr "a", JsVal.num 1), (jstr "b", JsVal.null)] ∧
      flattenObj [(jstr "a", JsVal.obj [(jstr "b", JsVal.num 1)])]
        = leafEntries [(jstr "a", JsVal.obj [(jstr "b", JsVal.num 1)])] [] := by
  constructor
  · exact c8_flatten_characterization.2.2.2.2.1 _ (by decide) (by decide)
  · refine c8_flatten_characterization.2.2.2.2.2 _ ?_
    norm_num [leafEntries_cons_obj, leafEntries_cons_nonobj, leafEntries_nil, isObjV, jstr]

/-- C9: flattening is not injective: the distinct mappings `\x7ba: \x7bb: 1\x7d\x7d`
and `\x7ba_b: 1\x7d` flatten identically; a nested path colliding with an
existing flattened key is silently overwritten by the later-visited value
(which keeps the earlier position); and every query builder and CRUD
operation factors through flattening, so it behaves identically on inputs
with equal flattenings. -/
theorem c9_flatten_collisions :
    (flattenObj [(jstr "a", JsVal.obj [(jstr "b", JsVal.num 1)])] = flattenObj [(jstr "a_b", JsVal.num 1)]) ∧
      ([(jstr "a", JsVal.obj [(jstr "b", JsVal.num 1)])] ≠ [(jstr "a_b", JsVal.num 1)]) ∧
      (flattenObj [(jstr "a_b", JsVal.num 1), (jstr "a", JsVal.obj [(jstr "b", JsVal.num 2)])]
        = [(jstr "a_b", JsVal.num 2)]) ∧
      (∀ (t : JSString) (x y w z : JsObj), flattenObj x = flattenObj y → flattenObj w = flattenObj z →
        buildInsertQuery t x = buildInsertQuery t y ∧
        buildSelectQuery t x = buildSelectQuery t y ∧
        buildUpdateQuery t x w = buildUpdateQuery t y z ∧
        updateValues x w = updateValues y z ∧
        (∀ c : Conn, insert c t x = insert c t y ∧ find c t x = find c t y ∧
          findOne c t x = findOne c t y ∧ update c t x w = update c t y z)) := by
  have e : jstr "a" ++ 95 :: jstr "b" = jstr "a_b" := by decide
  have e2 : (jstr "a" : List Nat) ≠ [] := by decide
  refine ⟨?_, ?_, ?_, ?_⟩
  · simp [flattenObj, setKey, e, e2]
  · simp [jstr]
  · simp [flattenObj, setKey, e, e2]
  · intro t x y w z hx hw
    refine ⟨?_, ?_, ?_, ?_, fun c => ⟨?_, ?_, ?_, ?_⟩⟩
    · simp only [buildInsertQuery, hx]
    · simp only [buildSelectQuery, buildParamString, hx]
    · simp only [buildUpdateQuery, hx, hw]
    · simp only [updateValues, hx, hw]
    · simp only [insert, hx]
    · simp only [find, hx]
    · simp only [findOne, hx]
    · simp only [update, updateValues, hx, hw]

theorem flattenObj_values_nonObj (obj : JsObj) :
    ∀ p ∈ flattenObj obj, isObjV p.2 = false := by
  intro p hp
  rw [show flattenObj obj = flattenObj obj [] [] from rfl, flattenObj_eq_foldl] at hp
  rcases mem_foldl_setKey _ _ _ hp with h | h
  · exact absurd h (List.not_mem_nil p)
  · exact leafEntries_nonObj obj [] p h

/-- C2, counterexample: with value mapping `\x7ba: 1\x7d` and filter mapping
`\x7ba: 2\x7d` the `Object.assign` merge collapses the shared key, so `update`
binds the single value 2 instead of the values 1 then 2 required by the
emitted `SET` and `WHERE` placeholders. -/
theorem c2_update_bindings_counterexample :
    updateValues [([97], JsVal.num 1)] [([97], JsVal.num 2)] = [JsVal.num 2] ∧
      updateValues [([97], JsVal.num 1)] [([97], JsVal.num 2)]
        ≠ quoteAll ((flattenObj [([97], JsVal.num 1)]).map (fun p => p.2)) false
          ++ quoteAll ((flattenObj [([97], JsVal.num 2)]).map (fun p => p.2)) false := by
  have h1 : updateValues [([97], JsVal.num 1)] [([97], JsVal.num 2)] = [JsVal.num 2] := by
    simp [updateValues, flattenObj, setKey, quoteAll, quote]
  refine ⟨h1, ?_⟩
  rw [h1]
  simp [flattenObj, setKey, quoteAll, quote]

/-- C2, amended: when the flattened value mapping and the flattened filter
mapping share no key, `update` executes its prepared statement with the
bound parameter list equal to the flattened values followed by the
flattened filter values (each quoted in literal mode), matching the order
of the `SET` then `WHERE` placeholders; a shared key breaks this (see the
counterexample). -/
theorem c2_update_bindings (v w : JsObj)
    (hdisj : ∀ k ∈ (flattenObj v).map (fun p => p.1), k ∉ (flattenObj w).map (fun p => p.1)) :
    updateValues v w
      = quoteAll ((flattenObj v).map (fun p => p.2)) false
        ++ quoteAll ((flattenObj w).map (fun p => p.2)) false := by
  unfold updateValues
  have hnv := flattenObj_keys_nodup v
  have hnw := flattenObj_keys_nodup w
  rw [foldl_setKey_fresh (flattenObj w) (flattenObj v) (fun k hkw hkv => hdisj k hkv hkw) hnw]
  show quoteAll ((flattenObj (flattenObj v ++ flattenObj w)).map (fun p => p.2)) false = _
  rw [flattenObj_flat (flattenObj v ++ flattenObj w) ?_ ?_]
  · simp [quoteAll]
  · intro p hp
    rcases List.mem_append.1 hp with h | h
    · exact flattenObj_values_nonObj v p h
    · exact flattenObj_values_nonObj w p h
  · rw [List.map_append, List.nodup_append]
    exact ⟨hnv, hnw, hdisj⟩

/-- C2, witness: the amended binding law evaluated at value mapping
`\x7ba: 1\x7d` and filter mapping `\x7bb: 2\x7d`. -/
theorem c2_update_bindings_witness :
    updateValues [([97], JsVal.num 1)] [([98], JsVal.num 2)] = [JsVal.num 1, JsVal.num 2] := by
  have h := c2_update_bindings [([97], JsVal.num 1)] [([98], JsVal.num 2)]
    (by simp [flattenObj, setKey])
  rw [h]
  simp [flattenObj, setKey, quoteAll, quote]

theorem intercalate_cons_head (sep : JSString) (c : Nat) (t : JSString) (rest : List JSString) :
    ∃ u, List.intercalate sep ((c :: t) :: rest) = c :: u := by
  cases rest with
  | nil => exact ⟨t, by simp [List.intercalate]⟩
  | cons y ys =>
    refine ⟨t ++ sep ++ List.intercalate sep (y :: ys), ?_⟩
    simp [List.intercalate, List.cons_append, List.append_assoc]

theorem buildParamString_nil (joiner : JSString) : buildParamString [] joiner = [] := by
  unfold buildParamString
  rw [flattenObj_nil]
  simp [List.intercalate]

theorem quoteKeyRaw_eq (k : JSString) : quoteKeyRaw k = 34 :: (k ++ [34]) := rfl

theorem buildParamString_isEmpty_false (params : JsObj) (joiner : JSString)
    (h : flattenObj params ≠ []) : (buildParamString params joiner).isEmpty = false := by
  unfold buildParamString
  cases hfe : flattenObj params with
  | nil => exact absurd hfe h
  | cons q qs =>
    show (List.intercalate joiner
      ((q :: qs).map (fun p => jsToString (quote (JsVal.str p.1)) ++ jstr " = ?"))).isEmpty = false
    rw [List.map_cons]
    have hfrag : jsToString (quote (.str q.1)) ++ jstr " = ?" = 34 :: (q.1 ++ [34] ++ jstr " = ?") := by
      simp [quote, jsToString, List.append_assoc]
    rw [hfrag]
    obtain ⟨u, hu⟩ := intercalate_cons_head joiner 34 (q.1 ++ [34] ++ jstr " = ?")
      ((qs.map (fun p => jsToString (quote (.str p.1)) ++ jstr " = ?")))
    rw [hu]
    rfl

/-- C3: `buildUpdateQuery("table", \x7ba: 1\x7d, \x7bb: 2\x7d)` is exactly
`UPDATE "table" SET "a" = ? WHERE "b" = ?;`, and for every table and value
mapping with a nonempty flattening, an empty filter mapping produces the
statement with a stray double quote between the SET clause and the
semicolon, not the clean SET-only statement. -/
theorem c3_build_update_query :
    (buildUpdateQuery (jstr "table") [(jstr "a", JsVal.num 1)] [(jstr "b", JsVal.num 2)]
      = jstr "UPDATE \x22table\x22 SET \x22a\x22 = ? WHERE \x22b\x22 = ?;") ∧
      (∀ (table : JSString) (v : JsObj), flattenObj v ≠ [] →
        buildUpdateQuery table v []
            = jstr "UPDATE \x22" ++ table ++ jstr "\x22 SET "
              ++ buildParamString (flattenObj v) (jstr ", ") ++ jstr "\x22;" ∧
          buildUpdateQuery table v []
            ≠ jstr "UPDATE \x22" ++ table ++ jstr "\x22 SET "
              ++ buildParamString (flattenObj v) (jstr ", ") ++ jstr ";") := by
  constructor
  · simp [buildUpdateQuery, buildParamString, flattenObj, setKey]
    decide
  · intro table v hv
    have hbranch : buildUpdateQuery table v []
        = jstr "UPDATE \x22" ++ table ++ jstr "\x22 SET "
          ++ buildParamString (flattenObj v) (jstr ", ") ++ jstr "\x22;" := by
      simp only [buildUpdateQuery]
      rw [flattenObj_nil, buildParamString_nil]
      simp [buildParamString]
    refine ⟨hbranch, ?_⟩
    rw [hbranch]
    intro h
    have hlen := congrArg List.length h
    simp [List.length_append, jstr] at hlen

/-- C3, witness: the empty-filter branch evaluated at table `t` and value
mapping `\x7ba: 1\x7d`: the emitted text is `UPDATE "t" SET "a" = ?";` with the
stray quote. -/
theorem c3_build_update_query_witness :
    buildUpdateQuery (jstr "t") [(jstr "a", JsVal.num 1)] []
      = jstr "UPDATE \x22t\x22 SET \x22a\x22 = ?\x22;" := by
  have h := (c3_build_update_query.2 (jstr "t") [(jstr "a", JsVal.num 1)]
    (by simp [flattenObj, setKey])).1
  rw [h]
  simp [buildParamString, flattenObj, setKey, quote, jsToString]
  decide

/-- C7: `buildSelectQuery` emits an unconditional scan for an empty
(flattened) filter and a `WHERE` clause of `"col" = ?` fragments joined by
` AND ` in flattened-mapping iteration order otherwise. -/
theorem c7_build_select_query :
    (buildSelectQuery (jstr "table") [] = jstr "SELECT * FROM \x22table\x22;") ∧
      (buildSelectQuery (jstr "table") [(jstr "a", JsVal.num 1)]
        = jstr "SELECT * FROM \x22table\x22 WHERE \x22a\x22 = ?;") ∧
      (buildSelectQuery (jstr "table") [(jstr "a", JsVal.num 1), (jstr "b", JsVal.num 2)]
        = jstr "SELECT * FROM \x22table\x22 WHERE \x22a\x22 = ? AND \x22b\x22 = ?;") ∧
      (∀ (table : JSString) (params : JsObj), flattenObj params = [] →
        buildSelectQuery table params = jstr "SELECT * FROM \x22" ++ table ++ jstr "\x22;") ∧
      (∀ (table : JSString) (params : JsObj), flattenObj params ≠ [] →
        buildSelectQuery table params
          = jstr "SELECT * FROM \x22" ++ table ++ jstr "\x22 WHERE "
            ++ List.intercalate (jstr " AND ")
                ((flattenObj params).map (fun p => quoteKeyRaw p.1 ++ jstr " = ?"))
            ++ jstr ";") := by
  refine ⟨?_, ?_, ?_, ?_, ?_⟩
  · simp [buildSelectQuery, buildParamString, flattenObj, setKey]
    decide
  · simp [buildSelectQuery, buildParamString, flattenObj, setKey]
    decide
  · simp [buildSelectQuery, buildParamString, flattenObj, setKey]
    decide
  · intro table params hp
    simp only [buildSelectQuery, buildParamString]
    rw [hp]
    simp [List.intercalate]
  · intro table params hp
    simp only [buildSelectQuery, buildParamString_isEmpty_false params _ hp]
    simp only [Bool.false_eq_true, if_false]
    simp [buildParamString, quoteKeyRaw]

/-- C7, witness: the two general branches evaluated at table `t` with the
empty filter and with the filter `\x7ba: 1\x7d`. -/
theorem c7_build_select_query_witness :
    buildSelectQuery (jstr "t") [] = jstr "SELECT * FROM \x22t\x22;" ∧
      buildSelectQuery (jstr "t") [(jstr "a", JsVal.num 1)]
        = jstr "SELECT * FROM \x22t\x22 WHERE \x22a\x22 = ?;" := by
  constructor
  · have h := c7_build_select_query.2.2.2.1 (jstr "t") [] (flattenObj_nil [] [])
    rw [h]
    decide
  · have h := c7_build_select_query.2.2.2.2 (jstr "t") [(jstr "a", JsVal.num 1)]
      (by simp [flattenObj, setKey])
    rw [h]
    simp [flattenObj, setKey, quoteKeyRaw_eq]
    decide

/-- C9, witness: the builder congruence applied to the colliding inputs
`\x7ba: \x7bb: 1\x7d\x7d` and `\x7ba_b: 1\x7d`, which flatten identically. -/
theorem c9_flatten_collisions_witness :
    buildInsertQuery (jstr "t") [(jstr "a", JsVal.obj [(jstr "b", JsVal.num 1)])]
      = buildInsertQuery (jstr "t") [(jstr "a_b", JsVal.num 1)] := by
  have hx : flattenObj [(jstr "a", JsVal.obj [(jstr "b", JsVal.num 1)])]
      = flattenObj [(jstr "a_b", JsVal.num 1)] := by
    have e : jstr "a" ++ 95 :: jstr "b" = jstr "a_b" := by decide
    have e2 : (jstr "a" : List Nat) ≠ [] := by decide
    simp [flattenObj, setKey, e, e2]
  exact (c9_flatten_collisions.2.2.2 (jstr "t") _ _ [] [] hx rfl).1

theorem initTablesGo_schema (l : List TableDef) :
    ∀ c : Conn, (initTablesGo c l).2.1 = none → (initTablesGo c l).2.2 = l.map mutateTable := by
  induction l with
  | nil => intro c _; rfl
  | cons t rest ih =>
    intro c h
    cases hr : runStmt c (.createTable (dq t.tableName) (mutateTable t).columns) with
    | mk c1 e =>
      cases e with
      | some e1 => simp [initTablesGo, hr] at h
      | none =>
        simp only [initTablesGo, hr] at h ⊢
        rw [List.map_cons, ih c1 h]

/-- C10: `initTables` rewrites the caller's Schema Descriptor in place:
on success every column name in the returned schema structure is the
double-quoted form of the original; running `initTables` again on the
already-mutated structure quotes the names a second time, so the emitted
`CREATE TABLE` text carries doubly-quoted column names. -/
theorem c10_init_tables_mutates_schema :
    (∀ (c : Conn) (sch : List TableDef), (initTables c sch).2.1 = none →
      (initTables c sch).2.2 = sch.map mutateTable) ∧
      (∀ t : TableDef, (mutateTable t).columns
        = t.columns.map (fun v => (34 :: (v.1 ++ [34]), v.2))) ∧
      (∀ (c : Conn) (t : TableDef) (rest : List TableDef), c.txnBase = none →
        ((initTables c (mutateTable t :: rest)).2.2).head? = some (mutateTable (mutateTable t))) ∧
      (∀ t : TableDef, (mutateTable (mutateTable t)).columns
        = t.columns.map (fun v => (34 :: 34 :: (v.1 ++ [34, 34]), v.2))) ∧
      (createTableSql (mutateTable (mutateTable ⟨jstr "t", [(jstr "c", jstr "TEXT")]⟩))
        = jstr "CREATE TABLE IF NOT EXISTS \x22t\x22 (\x22\x22c\x22\x22 TEXT);") := by
  refine ⟨?_, ?_, ?_, ?_, by decide⟩
  · intro c sch h
    cases hb : runBegin c with
    | mk c1 e =>
      cases e with
      | some e1 => simp [initTables, hb] at h
      | none =>
        cases hg : initTablesGo c1 sch with
        | mk c2 pr =>
          cases pr with
          | mk err sch2 =>
            cases err with
            | some e2 => simp [initTables, hb, hg] at h
            | none =>
              simp only [initTables, hb, hg] at h ⊢
              have := initTablesGo_schema sch c1
              rw [hg] at this
              exact this rfl
  · intro t
    simp [mutateTable, quoteKeyRaw_eq]
  · intro c t rest htb
    cases hr : runStmt ⟨c.db, some c.db⟩
        (.createTable (dq (mutateTable t).tableName) (mutateTable (mutateTable t)).columns) with
    | mk c1 e =>
      cases e with
      | some e1 => simp [initTables, runBegin, htb, initTablesGo, hr]
      | none =>
        cases hg : initTablesGo c1 rest with
        | mk c2 pr =>
          cases pr with
          | mk err sch2 =>
            cases err <;> simp [initTables, runBegin, htb, initTablesGo, hr, hg]
  · intro t
    simp [mutateTable, quoteKeyRaw_eq, List.map_map, Function.comp]

/-- C10, witness: a fresh connection and the one-table schema
`t(c TEXT)`: the first call succeeds and returns the schema with the
column name double-quoted, and a second call's schema begins with the
doubly-quoted entry. -/
theorem c10_init_tables_mutates_schema_witness :
    (initTables ⟨[], none⟩ [⟨jstr "t", [(jstr "c", jstr "TEXT")]⟩]).2.2
        = [mutateTable ⟨jstr "t", [(jstr "c", jstr "TEXT")]⟩] ∧
      ((initTables ⟨[], none⟩ [mutateTable ⟨jstr "t", [(jstr "c", jstr "TEXT")]⟩]).2.2).head?
        = some (mutateTable (mutateTable ⟨jstr "t", [(jstr "c", jstr "TEXT")]⟩)) := by
  constructor
  · exact c10_init_tables_mutates_schema.1 ⟨[], none⟩ [⟨jstr "t", [(jstr "c", jstr "TEXT")]⟩] rfl
  · exact c10_init_tables_mutates_schema.2.2.1 ⟨[], none⟩ ⟨jstr "t", [(jstr "c", jstr "TEXT")]⟩ [] rfl

end SqliteDatabase

theorem runStmt_txnBase (c : Conn) (st : Stmt) : (runStmt c st).1.txnBase = c.txnBase := by
  cases he : execStmt c.db st <;> simp [runStmt, he]

theorem runQueries_txnBase (qs : List Stmt) :
    ∀ c, (SqliteDatabase.runQueries c qs).1.txnBase = c.txnBase := by
  induction qs with
  | nil => intro c; rfl
  | cons q rest ih =>
    intro c
    cases he : execStmt c.db q with
    | ok db1 =>
      simp only [SqliteDatabase.runQueries, seqOp, runStmt, he]
      exact ih ⟨db1, c.txnBase⟩
    | error e => simp [SqliteDatabase.runQueries, seqOp, runStmt, he]

theorem runQueries_ok (qs : List Stmt) :
    ∀ c, (SqliteDatabase.runQueries c qs).2 = none →
      applyStmts c.db qs = some (SqliteDatabase.runQueries c qs).1.db := by
  induction qs with
  | nil => intro c _; rfl
  | cons q rest ih =>
    intro c h
    cases he : execStmt c.db q with
    | ok db1 =>
      simp only [SqliteDatabase.runQueries, seqOp, runStmt, he] at h ⊢
      simp only [applyStmts, he]
      exact ih ⟨db1, c.txnBase⟩ h
    | error e => simp [SqliteDatabase.runQueries, seqOp, runStmt, he] at h

theorem initTablesGo_txnBase (l : List SqliteDatabase.TableDef) :
    ∀ c, (SqliteDatabase.initTablesGo c l).1.txnBase = c.txnBase := by
  induction l with
  | nil => intro c; rfl
  | cons t rest ih =>
    intro c
    cases he : execStmt c.db (.createTable (dq t.tableName)
        (SqliteDatabase.mutateTable t).columns) with
    | ok db1 =>
      simp only [SqliteDatabase.initTablesGo, runStmt, he]
      exact ih ⟨db1, c.txnBase⟩
    | error e => simp [SqliteDatabase.initTablesGo, runStmt, he]

theorem seq3_abort (c : Conn) (st : Stmt)
    (h : (seqOp (runBegin c) (fun c1 => seqOp (runStmt c1 st) runCommit)).2 ≠ none) :
    observable (seqOp (runBegin c) (fun c1 => seqOp (runStmt c1 st) runCommit)).1 = observable c := by
  cases htb : c.txnBase with
  | some base => simp [seqOp, runBegin, htb, observable]
  | none =>
    cases he : execStmt c.db st with
    | ok db1 => simp [seqOp, runBegin, htb, runStmt, he, runCommit] at h
    | error e => simp [seqOp, runBegin, htb, runStmt, he, runCommit, observable]

namespace SqliteDatabase

/-- C6: every transactional operation is all-or-nothing on the durable
state: whenever `atomicQuery`, `insert`, `update` or `initTables` throws,
the observable (committed) state is unchanged; when `atomicQuery` commits,
the durable state is exactly the sequential application of the whole
batch; and concretely, of two inserts submitted in one `atomicQuery`
batch, a later `find` (after recovery) sees both when the batch commits
and neither when the second statement fails. -/
theorem c6_transaction_atomicity :
    (∀ (c : Conn) (qs : List Stmt), (atomicQuery c qs).2 ≠ none →
      observable (atomicQuery c qs).1 = observable c) ∧
      (∀ (c : Conn) (qs : List Stmt), c.txnBase = none → (atomicQuery c qs).2 = none →
        applyStmts c.db qs = some (atomicQuery c qs).1.db ∧ (atomicQuery c qs).1.txnBase = none) ∧
      (∀ (c : Conn) (t : JSString) (p : JsObj), (insert c t p).2 ≠ none →
        observable (insert c t p).1 = observable c) ∧
      (∀ (c : Conn) (t : JSString) (v w : JsObj), (update c t v w).2 ≠ none →
        observable (update c t v w).1 = observable c) ∧
      (∀ (c : Conn) (sch : List TableDef), (initTables c sch).2.1 ≠ none →
        observable (initTables c sch).1 = observable c) ∧
      (let c1 := (initTables ⟨[], none⟩ [⟨jstr "t", [(jstr "c", jstr "TEXT")]⟩]).1
       let ins1 := Stmt.insertRow (dq (jstr "t")) [quoteKeyRaw (jstr "c")] [JsVal.num 1]
       let ins2 := Stmt.insertRow (dq (jstr "t")) [quoteKeyRaw (jstr "c")] [JsVal.num 2]
       let insBad := Stmt.insertRow (dq (jstr "missing")) [quoteKeyRaw (jstr "c")] [JsVal.num 2]
       find (recover (atomicQuery c1 [ins1, ins2]).1) (jstr "t") []
           = .ok [[(jstr "c", JsVal.str (jstr "1"))], [(jstr "c", JsVal.str (jstr "2"))]] ∧
         find (recover (atomicQuery c1 [ins1, insBad]).1) (jstr "t") [] = .ok []) := by
  have habort : ∀ (c : Conn) (qs : List Stmt), (atomicQuery c qs).2 ≠ none →
      observable (atomicQuery c qs).1 = observable c := by
    intro c qs h
    cases htb : c.txnBase with
    | some base => simp [atomicQuery, seqOp, runBegin, htb]
    | none =>
      cases hq : runQueries ⟨c.db, some c.db⟩ qs with
      | mk c2 e =>
        have h2 : c2.txnBase = some c.db := by
          have := runQueries_txnBase qs ⟨c.db, some c.db⟩
          rw [hq] at this
          exact this
        cases e with
        | some e1 =>
          simp only [atomicQuery, seqOp, runBegin, htb, hq]
          simp [observable, h2, htb]
        | none =>
          simp [atomicQuery, seqOp, runBegin, htb, hq, runCommit, h2] at h
  refine ⟨habort, ?_, ?_, ?_, ?_, ?_⟩
  · intro c qs htb h
    cases hq : runQueries ⟨c.db, some c.db⟩ qs with
    | mk c2 e =>
      have h2 : c2.txnBase = some c.db := by
        have := runQueries_txnBase qs ⟨c.db, some c.db⟩
        rw [hq] at this
        exact this
      cases e with
      | some e1 => simp [atomicQuery, seqOp, runBegin, htb, hq] at h
      | none =>
        have hap := runQueries_ok qs ⟨c.db, some c.db⟩ (by rw [hq])
        rw [hq] at hap
        simp only [atomicQuery, seqOp, runBegin, htb, hq, runCommit, h2]
        exact ⟨hap, trivial⟩
  · intro c t p h
    simp only [insert] at h ⊢
    by_cases hfe : (flattenObj p).isEmpty = true
    · simp [hfe]
    · simp only [hfe, Bool.false_eq_true, if_false] at h ⊢
      exact seq3_abort c _ h
  · intro c t v w h
    simp only [update] at h ⊢
    by_cases hfe : ((buildParamString (flattenObj w)).isEmpty
        || (buildParamString (flattenObj v) (jstr ", ")).isEmpty) = true
    · simp [hfe]
    · simp only [hfe, Bool.false_eq_true, if_false] at h ⊢
      exact seq3_abort c _ h
  · intro c sch h
    cases htb : c.txnBase with
    | some base => simp [initTables, runBegin, htb]
    | none =>
      cases hg : initTablesGo ⟨c.db, some c.db⟩ sch with
      | mk c2 pr =>
        have h2 : c2.txnBase = some c.db := by
          have := initTablesGo_txnBase sch ⟨c.db, some c.db⟩
          rw [hg] at this
          exact this
        cases pr with
        | mk err sch2 =>
          cases err with
          | some e1 =>
            simp only [initTables, runBegin, htb, hg]
            simp [observable, h2, htb]
          | none =>
            simp [initTables, runBegin, htb, hg, runCommit, h2] at h
  · constructor
    · simp only [find, flattenObj_nil]
      rfl
    · simp only [find, flattenObj_nil]
      rfl

/-- C6, witness: the abort clause applied to a batch whose single insert
targets a missing table on a fresh connection, and the commit clause
applied to the empty batch. -/
theorem c6_transaction_atomicity_witness :
    observable (atomicQuery ⟨[], none⟩
        [Stmt.insertRow (dq (jstr "missing")) [quoteKeyRaw (jstr "c")] [JsVal.num 1]]).1
      = observable ⟨[], none⟩ ∧
      applyStmts (Conn.db ⟨[], none⟩) ([] : List Stmt)
        = some (atomicQuery ⟨[], none⟩ ([] : List Stmt)).1.db := by
  constructor
  · exact c6_transaction_atomicity.1 ⟨[], none⟩ _ (by decide)
  · exact (c6_transaction_atomicity.2.1 ⟨[], none⟩ [] rfl (by decide)).1

end SqliteDatabase

namespace SqliteDatabase

theorem flattenObj_single (k : JSString) (v : JsVal) (hv : isObjV v = false) :
    flattenObj [(k, v)] = [(k, v)] := by
  refine flattenObj_flat _ ?_ (by simp)
  intro p hp
  rw [List.mem_singleton] at hp
  rw [hp]
  exact hv

theorem facade_roundtrip (ty : JSString) (v : JsVal) (hv : isObjV v = false)
    (hbb : badBind (quote v false) = false)
    (heq : sqlEq (applyAffinity (columnAffinity ty) (quote v false))
      (applyAffinity (columnAffinity ty) (quote v false)) = true) :
    (insert (initTables ⟨[], none⟩ [⟨jstr "t", [(jstr "c", ty)]⟩]).1
        (jstr "t") [(jstr "c", v)]).2 = none ∧
      findOne (insert (initTables ⟨[], none⟩ [⟨jstr "t", [(jstr "c", ty)]⟩]).1
          (jstr "t") [(jstr "c", v)]).1 (jstr "t") [(jstr "c", v)]
        = .ok (dequoteAll (some [(jstr "c", applyAffinity (columnAffinity ty) (quote v false))])) := by
  have h1 : (initTables ⟨[], none⟩ [⟨jstr "t", [(jstr "c", ty)]⟩]).1
      = ⟨[(jstr "t", ⟨[(jstr "c", columnAffinity ty)], []⟩)], none⟩ := rfl
  have hfl : flattenObj [(jstr "c", v)] = [(jstr "c", v)] := flattenObj_single _ _ hv
  have e1 : ¬ (34 ∈ jstr "t") := by decide
  have e2 : ¬ (34 ∈ jstr "c") := by decide
  have haff : ∀ R : List JsObj, affOf ⟨[(jstr "c", columnAffinity ty)], R⟩ (jstr "c")
      = columnAffinity ty := fun R => rfl
  rw [h1]
  simp only [insert, findOne, hfl, List.isEmpty_cons, List.map_cons, List.map_nil, quoteAll]
  simp only [seqOp, runBegin, runStmt, runCommit, execStmt, execSelect, unquoteId, dq,
    quoteKeyRaw_eq, lookupTable, updateTableData, rowMatches, lookupVal,
    List.mapM_cons, List.mapM_nil, hbb, heq, haff]
  simp [hbb, heq, haff, e1, e2, List.lookup]

/-- C5, counterexample: on the one-column TEXT schema, inserting the
boolean `true` and reading it back with the same filter yields the text
string `1` (the literal quoting path turns `true` into the integer 1 and
the TEXT column's affinity stores that as text), and likewise the number
5 comes back as the text string `5` — neither equals the inserted
value. -/
theorem c5_insert_findone_counterexample :
    findOne (insert (initTables ⟨[], none⟩ [⟨jstr "t", [(jstr "c", jstr "TEXT")]⟩]).1
        (jstr "t") [(jstr "c", JsVal.bool true)]).1 (jstr "t") [(jstr "c", JsVal.bool true)]
      = .ok (some [(jstr "c", JsVal.str (jstr "1"))]) ∧
      (Except.ok (some [(jstr "c", JsVal.str (jstr "1"))]) : Except SqlErr (Option JsObj))
        ≠ .ok (some [(jstr "c", JsVal.bool true)]) ∧
      findOne (insert (initTables ⟨[], none⟩ [⟨jstr "t", [(jstr "c", jstr "TEXT")]⟩]).1
          (jstr "t") [(jstr "c", JsVal.num 5)]).1 (jstr "t") [(jstr "c", JsVal.num 5)]
        = .ok (some [(jstr "c", JsVal.str (jstr "5"))]) ∧
      (Except.ok (some [(jstr "c", JsVal.str (jstr "5"))]) : Except SqlErr (Option JsObj))
        ≠ .ok (some [(jstr "c", JsVal.num 5)]) := by
  refine ⟨?_, by simp, ?_, by simp⟩
  · exact (facade_roundtrip (jstr "TEXT") (.bool true) rfl rfl (by decide)).2
  · exact (facade_roundtrip (jstr "TEXT") (.num 5) rfl rfl (by decide)).2

/-- C5, amended: on a freshly initialized one-column database, `insert`
followed by `findOne` with the same one-field filter succeeds, and the
returned decoded field is the inserted value exactly when the value
survives the literal quoting path and the column's type affinity: with
the TEXT-declared column, strings round-trip, while numbers come back as
their decimal text, booleans as the text `1`/`0`, and `null` as the text
`null`; with an INTEGER-declared column, numbers round-trip. -/
theorem c5_insert_findone :
    (∀ n : Int,
      (insert (initTables ⟨[], none⟩ [⟨jstr "t", [(jstr "c", jstr "TEXT")]⟩]).1
          (jstr "t") [(jstr "c", JsVal.num n)]).2 = none ∧
        findOne (insert (initTables ⟨[], none⟩ [⟨jstr "t", [(jstr "c", jstr "TEXT")]⟩]).1
            (jstr "t") [(jstr "c", JsVal.num n)]).1 (jstr "t") [(jstr "c", JsVal.num n)]
          = .ok (some [(jstr "c", JsVal.str (intToText n))])) ∧
      (∀ s : JSString, (∀ u ∈ s, u < 65536) →
        (insert (initTables ⟨[], none⟩ [⟨jstr "t", [(jstr "c", jstr "TEXT")]⟩]).1
            (jstr "t") [(jstr "c", JsVal.str s)]).2 = none ∧
          findOne (insert (initTables ⟨[], none⟩ [⟨jstr "t", [(jstr "c", jstr "TEXT")]⟩]).1
              (jstr "t") [(jstr "c", JsVal.str s)]).1 (jstr "t") [(jstr "c", JsVal.str s)]
            = .ok (some [(jstr "c", JsVal.str s)])) ∧
      (findOne (insert (initTables ⟨[], none⟩ [⟨jstr "t", [(jstr "c", jstr "TEXT")]⟩]).1
          (jstr "t") [(jstr "c", JsVal.bool false)]).1 (jstr "t") [(jstr "c", JsVal.bool false)]
        = .ok (some [(jstr "c", JsVal.str (jstr "0"))])) ∧
      (findOne (insert (initTables ⟨[], none⟩ [⟨jstr "t", [(jstr "c", jstr "TEXT")]⟩]).1
          (jstr "t") [(jstr "c", JsVal.null)]).1 (jstr "t") [(jstr "c", JsVal.null)]
        = .ok (some [(jstr "c", JsVal.str (jstr "null"))])) ∧
      (∀ n : Int,
        (insert (initTables ⟨[], none⟩ [⟨jstr "t", [(jstr "c", jstr "INTEGER")]⟩]).1
            (jstr "t") [(jstr "c", JsVal.num n)]).2 = none ∧
          findOne (insert (initTables ⟨[], none⟩ [⟨jstr "t", [(jstr "c", jstr "INTEGER")]⟩]).1
              (jstr "t") [(jstr "c", JsVal.num n)]).1 (jstr "t") [(jstr "c", JsVal.num n)]
            = .ok (some [(jstr "c", JsVal.num n)])) := by
  have hT : columnAffinity (jstr "TEXT") = Affinity.text := rfl
  have hI : columnAffinity (jstr "INTEGER") = Affinity.integer := rfl
  refine ⟨?_, ?_, ?_, ?_, ?_⟩
  · intro n
    have h := facade_roundtrip (jstr "TEXT") (.num n) rfl rfl
      (by rw [hT]; simp [quote, applyAffinity, sqlEq])
    refine ⟨h.1, h.2.trans ?_⟩
    rw [hT]
    simp [quote, applyAffinity, dequoteAll, dequoteEntries,
      unescape_no_percent _ (intToText_no_percent n)]
  · intro s hs
    have h := facade_roundtrip (jstr "TEXT") (.str s) rfl rfl
      (by rw [hT]; simp [quote, applyAffinity, sqlEq])
    refine ⟨h.1, h.2.trans ?_⟩
    rw [hT]
    simp [quote, applyAffinity, dequoteAll, dequoteEntries, unescape_escape s hs]
  · exact (facade_roundtrip (jstr "TEXT") (.bool false) rfl rfl (by decide)).2
  · exact (facade_roundtrip (jstr "TEXT") .null rfl rfl (by decide)).2
  · intro n
    have h := facade_roundtrip (jstr "INTEGER") (.num n) rfl rfl
      (by rw [hI]; simp [quote, applyAffinity, sqlEq])
    exact ⟨h.1, h.2⟩

/-- C5, witness: on the TEXT column the number 5 returns as the text `5`
and the string `x%` (which needs percent-encoding) round-trips; on the
INTEGER column the number 5 round-trips. -/
theorem c5_insert_findone_witness :
    findOne (insert (initTables ⟨[], none⟩ [⟨jstr "t", [(jstr "c", jstr "TEXT")]⟩]).1
        (jstr "t") [(jstr "c", JsVal.num 5)]).1 (jstr "t") [(jstr "c", JsVal.num 5)]
      = .ok (some [(jstr "c", JsVal.str (jstr "5"))]) ∧
      findOne (insert (initTables ⟨[], none⟩ [⟨jstr "t", [(jstr "c", jstr "TEXT")]⟩]).1
          (jstr "t") [(jstr "c", JsVal.str (jstr "x%"))]).1 (jstr "t") [(jstr "c", JsVal.str (jstr "x%"))]
        = .ok (some [(jstr "c", JsVal.str (jstr "x%"))]) ∧
      findOne (insert (initTables ⟨[], none⟩ [⟨jstr "t", [(jstr "c", jstr "INTEGER")]⟩]).1
          (jstr "t") [(jstr "c", JsVal.num 5)]).1 (jstr "t") [(jstr "c", JsVal.num 5)]
        = .ok (some [(jstr "c", JsVal.num 5)]) :=
  ⟨(c5_insert_findone.1 5).2, (c5_insert_findone.2.1 (jstr "x%") (by decide)).2,
    (c5_insert_findone.2.2.2.2 5).2⟩

end SqliteDatabase
